import Mathlib

/-!
Verification of the request-resolution core of the SimpleServe HTTP file
server (src/main.rs, src/serve.rs).

The embedding models:
  * paths as lists of components (`PathBuf`); the base directory and every
    path built from it are component lists, so `components().count()` is
    `List.length` (the constant RootDir component of absolute Rust paths
    cancels in every subtraction the code performs);
  * the filesystem and the OS process layer as an explicit record of
    (deterministic) oracles `FS`: directory/existence/executability tests,
    tempfile creation success, process spawning, file opening and the
    external `file -ib` mimetype command;
  * child processes by their observable outcomes: whether their stdout pipe
    is still unconsumed, the result of `wait()` (an optional exit code, or
    an IO error), and the result of `wait_with_output()`;
  * side effects (spawning and killing children) as an event trace returned
    alongside each result;
  * Rust panics (the `todo!()` in `ProcessingState::handle_code`) as the
    `Except.error` channel of each function's result;
  * the unbounded recursion of the resolver (an error handler can itself
    fail, re-entering resolution) with an explicit fuel parameter, consumed
    only at the re-entry recursion.

Header validity checking performed by the `http` crate's response `Builder`
is not modelled: a header is recorded as the `(name, value)` pair handed to
`Builder::header`.
-/

/-- Rust `PathBuf`, as its list of normal components. -/
abbrev PathBuf := List String

/-- Display form of a path (stands in for `Path::to_string_lossy`). -/
def path_str (p : PathBuf) : String := String.intercalate "/" p

/-- Rust `Path::parent`: `None` at the root, otherwise the path minus its
last component. -/
def path_parent : PathBuf → Option PathBuf
  | [] => none
  | p => some p.dropLast

/-- Outcome of `Child::wait_with_output` on the last chain element:
captured stdout bytes and the stderr stream. `stderrUtf8 = none` models a
stderr that is not valid UTF-8 (so `String::from_utf8` fails). -/
structure ChildOutput where
  stdout : List Nat
  stderrUtf8 : Option String
deriving Repr

/-- A spawned child process, by its observable behaviour. -/
structure Child where
  /-- whether `child.stdout` is still present (`Option::take` not yet run) -/
  stdoutLive : Bool
  /-- `wait()`: `.error` is an IO error; `.ok none` is termination without
  an exit code (killed by a signal); `.ok (some c)` is exit code `c` -/
  waitRes : Except String (Option Int)
  /-- `wait_with_output()` -/
  outputRes : Except String ChildOutput
deriving Repr

/-- A seekable file handle (`std::fs::File`). -/
structure FileHandle where
  rewindOk : Bool
  readRes : Except String (List Nat)
deriving Repr

/-- Observable process-level side effects of the walker and resolver. -/
inductive Event where
  | spawn (p : PathBuf)
  | kill (p : PathBuf)
deriving Repr, DecidableEq

/-- `enum ProcessingState` from serve.rs. `OriginWrap`/`HasStatus` wrappers
are flattened into constructor fields. The `HttpError` payload (an
`http::Error`) is opaque to the core and carried without content. -/
inductive ProcessingState where
  | ErrorCode (e : Nat)
  | InternalError (e : Nat) (msg : String)
  | Static (h : FileHandle) (origin : PathBuf) (status : Nat)
  | Chain (stages : List (Child × PathBuf)) (status : Nat)
  | HttpError
deriving Repr

/-- `fn status_is_ok`: `(200..300).contains(&status)`. -/
def status_is_ok (status : Nat) : Bool := decide (200 ≤ status ∧ status < 300)

/-- `ProcessingState::status`. -/
def ProcessingState.status : ProcessingState → Nat
  | .ErrorCode e => e
  | .InternalError e _ => e
  | .Static _ _ e => e
  | .Chain _ e => e
  | .HttpError => 500

/-- `ProcessingState::is_ok`. -/
def ProcessingState.is_ok (p : ProcessingState) : Bool := status_is_ok p.status

/-- `ProcessingState::halt_processing`: kills every child of a `Chain`,
a no-op on every other variant. Modelled as the emitted kill events. -/
def halt_processing : ProcessingState → List Event
  | .Chain stages _ => stages.map (fun cp => Event.kill cp.2)
  | _ => []

/-- `ProcessingState::handle_code`. On `Chain` the source logs a fatal
message and executes `todo!()`, i.e. it panics; the panic is modelled as
the `Except.error` channel carrying the logged message. -/
def ProcessingState.handle_code : ProcessingState → Except String (Option Nat)
  | .ErrorCode e => .ok (some e)
  | .InternalError e _ => .ok (some e)
  | .Static _ _ status => .ok (some status)
  | .Chain _ _ =>
    .error "Attempting to direct a chain into a static file.  This is unimplemented, erroring."
  | .HttpError => .ok none

/-- Rust `str::starts_with(".")` on a layer segment: the first character
is `'.'`. (Defined on the character list so that it evaluates by kernel
reduction; `String.startsWith` of the Lean library is extensionally the
same test for a one-character pattern.) -/
def starts_with_dot (s : String) : Bool :=
  match s.toList with
  | [] => false
  | c :: _ => c == Char.ofNat 46

/-- `type BackTrackState = Result<ProcessingState, ProcessingState>`;
`Ok` is `BackTrack`, `Err` is `Done` (mirrored as `Except.ok` and
`Except.error`). -/
abbrev BackTrackState := Except ProcessingState ProcessingState

/-- `fn inner`: forget the Done/BackTrack marker. -/
def bt_inner : BackTrackState → ProcessingState
  | .ok p => p
  | .error p => p

/-- `pub const EXIT_CODES` from serve.rs. Note that 200 occurs twice: once
as the reserved index 0 and once at index 5, at the head of the 2xx block. -/
def EXIT_CODES : List Nat := [
  200,
  100, 101, 102, 103,
  200, 201, 202, 203, 204, 205, 206, 207, 208, 226,
  300, 301, 302, 303, 304, 305, 306, 307, 308,
  400, 401, 402, 403, 404, 405, 406, 407, 408, 409, 410, 411, 412, 413, 414, 415, 416, 417, 418,
  421, 422, 423, 424, 425, 426, 428, 429, 431, 451,
  500, 501, 502, 503, 504, 505, 506, 507, 508, 510, 511]

/-- Rust `r as usize` for an `i32` value `r`: sign extension to 64 bits
reinterpreted as unsigned, i.e. reduction modulo 2^64. -/
def i32_as_usize (r : Int) : Nat := (r % (2:Int) ^ 64).toNat

/-- `fn to_exit_code`: look the exit code up in `EXIT_CODES`, defaulting to
500 both for a missing exit code and for an out-of-range index. -/
def to_exit_code (res : Option Int) : Nat :=
  match res with
  | some r => (EXIT_CODES.get? (i32_as_usize r)).getD 500
  | none => 500

/-- `std::env::set_var` on an environment modelled as a partial map. -/
def set_var (env : String → Option String) (key value : String) : String → Option String :=
  fun s => if s = key then some value else env s

/-- One iteration of the startup loop in main.rs:
`env::set_var(key.to_string(), i.to_string())` for the pair `(i, key)`. -/
def install_step (env : String → Option String) (p : Nat × Nat) : String → Option String :=
  set_var env (toString p.2) (toString p.1)

/-- The startup loop of main.rs: for each `(i, key)` of
`EXIT_CODES.into_iter().enumerate()`, in list order, set the variable named
`key.to_string()` to `i.to_string()`. -/
def startup_env (env0 : String → Option String) : String → Option String :=
  EXIT_CODES.enum.foldl install_step env0

/-- The greatest index at which `s` occurs in `l` (meaningful when
`s ∈ l`). -/
def last_index_of (l : List Nat) (s : Nat) : Nat :=
  l.length - 1 - l.reverse.indexOf s

/-- The filesystem / OS oracles consulted by the walker, stage builder and
resolver. The source's time-of-check/time-of-use races are resolved by
making each oracle a deterministic function, matching the source's stated
assumption of a quasi-static served tree. -/
structure FS where
  /-- `Path::is_dir` -/
  isDir : PathBuf → Bool
  /-- `Path::exists` -/
  pathExists : PathBuf → Bool
  /-- `Path::is_executable` -/
  isExec : PathBuf → Bool
  /-- whether `tempfile()` for the headers file succeeds -/
  headerTempfileOk : Bool
  /-- whether the fallback-stdin `tempfile()` succeeds -/
  fallbackTempfileOk : Bool
  /-- `Command::spawn` at the given program path; `none` is a spawn error -/
  spawn : PathBuf → Option Child
  /-- `File::open`; `none` is an open error -/
  openFile : PathBuf → Option FileHandle
  /-- `run_fun!(file -ib p)` -/
  mimetype : PathBuf → Except String String

/-- `v.data.last_mut().map(|c| c.data.stdout.take())`: the last chain
element's stdout handle is moved out, leaving `None` behind. -/
def take_last_stdout : List (Child × PathBuf) → List (Child × PathBuf)
  | [] => []
  | [(c, p)] => [({ c with stdoutLive := false }, p)]
  | cp :: rest => cp :: take_last_stdout rest

/-- `fn handle_file` from serve.rs: the stage builder. Returns the new
state and the emitted process events; `Except.error` is a panic. -/
def handle_file (fs : FS) (file0 : PathBuf) (prev_state : ProcessingState)
    (_params : List String) : Except String (ProcessingState × List Event) :=
  match prev_state with
  | .HttpError => .ok (.HttpError, [])
  | _ =>
    let file := if fs.isDir file0 then file0 ++ [".index"] else file0
    if !fs.pathExists file then
      if prev_state.is_ok then
        .ok (.ErrorCode 404, halt_processing prev_state)
      else
        .ok (prev_state, [])
    else if fs.isDir file then
      .ok (.ErrorCode 418, halt_processing prev_state)
    else if fs.isExec file then
      match path_parent file with
      | none =>
        .ok (.InternalError 500 ("Could not determine parent folder of " ++ path_str file),
          halt_processing prev_state)
      | some _work_dir =>
        if !fs.headerTempfileOk then
          .ok (.InternalError 500 "Could not create header tempfile", halt_processing prev_state)
        else
          let inp : Bool × List (Child × PathBuf) × Nat :=
            match prev_state with
            | .Chain v status =>
              ((match v.getLast? with
                | some c => c.1.stdoutLive
                | none => false),
               take_last_stdout v, status)
            | .Static _ _ status => (true, [], status)
            | a => (fs.fallbackTempfileOk, [], a.status)
          match inp with
          | (has_input, prev_chain, status) =>
            if !has_input then
              .ok (.InternalError 500 "Could not ascertain input from previous processing state",
                prev_chain.map (fun cp => Event.kill cp.2))
            else
              match fs.spawn file with
              | none =>
                .ok (.InternalError 500 ("Error running command " ++ path_str file),
                  prev_chain.map (fun cp => Event.kill cp.2))
              | some child =>
                .ok (.Chain (prev_chain ++ [(child, file)]) status, [Event.spawn file])
    else
      match prev_state.handle_code with
      | .error m => .error m
      | .ok none =>
        .ok (.InternalError 500 ("Non-error code handed to static file " ++ path_str file), [])
      | .ok (some c) =>
        match fs.openFile file with
        | none => .ok (.InternalError 500 ("Couldn't open file " ++ path_str file), [])
        | some h => .ok (.Static h file c, [])

/-- The tail of `fn handle_layer`: push `.base`, test existence, and wrap
the result `Done` (`.error`) or `BackTrack` (`.ok`). -/
def base_check (fs : FS) (curr_layer : PathBuf) (res : ProcessingState) : BackTrackState :=
  if fs.pathExists (curr_layer ++ [".base"]) then .error res else .ok res

/-- `fn handle_layer` from serve.rs: the path walker. The source's `?` on
the recursive call propagates a `Done` result immediately, skipping the
`.base` check of the enclosing level; a panic (`Except.error`) propagates
through every level. -/
def handle_layer (fs : FS) (curr_layer : PathBuf) (remaining_layers : List String)
    (params : List String) (incoming_body : ProcessingState) :
    Except String (BackTrackState × List Event) :=
  match remaining_layers with
  | [] =>
    match handle_file fs curr_layer incoming_body params with
    | .error m => .error m
    | .ok (res, evs) => .ok (base_check fs curr_layer res, evs)
  | seg :: rest =>
    if starts_with_dot seg then
      .ok (base_check fs curr_layer (.ErrorCode 403), [])
    else
      match handle_layer fs (curr_layer ++ [seg]) rest params incoming_body with
      | .error m => .error m
      | .ok (.error p, evs) => .ok (.error p, evs)
      | .ok (.ok p, evs) => .ok (base_check fs curr_layer p, evs)

/-- An HTTP response as assembled by the `http` crate's `Builder`: status,
headers in insertion order, body bytes. -/
structure HttpResponse where
  status : Nat
  headers : List (String × String)
  body : List Nat
deriving Repr

/-- The `Result<Response, Error>` the resolver hands to the HTTP engine:
either a built response or an `http::Error` forwarded verbatim. -/
inductive HttpResult where
  | resp (r : HttpResponse)
  | engineErr
deriving Repr

/-- UTF-8 bytes of a string (Rust `String::len` counts these bytes). -/
def strBytes (s : String) : List Nat := s.toUTF8.toList.map (fun b => b.toNat)

/-- `fn error_response`. -/
def error_response (e : Nat) : HttpResponse :=
  let message := "Error " ++ toString e ++ ": That's all we know"
  { status := e
  , headers := [("Content-Type", "text/plain; charset=us-ascii"),
                ("Content-Length", toString (strBytes message).length)]
  , body := strBytes message }

/-- Rust `str::split_once(c)` on the character list of a string: split at
the first occurrence of `c`, or `none` when `c` does not occur. -/
def split_once_char (c : Char) : List Char → Option (List Char × List Char)
  | [] => none
  | x :: xs =>
    if x = c then some ([], xs)
    else (split_once_char c xs).map (fun p => (x :: p.1, p.2))

/-- Rust `str::split(c)` on the character list of a string. -/
def split_char (c : Char) : List Char → List (List Char)
  | [] => [[]]
  | x :: xs =>
    if x = c then [] :: split_char c xs
    else
      match split_char c xs with
      | [] => [[x]]
      | h :: t => (x :: h) :: t

/-- The newline character, the separator of the chain's header protocol. -/
def newlineChar : Char := Char.ofNat 10

/-- Header parsing of the final child's stderr:
`.split("\n").filter_map(|s| s.split_once("="))`. A line without `=`
(including the empty line) yields `none` and is dropped. -/
def parse_headers (s : String) : List (String × String) :=
  ((split_char newlineChar s.toList).filterMap (split_once_char '=')).map
    (fun p => (String.mk p.1, String.mk p.2))

/-- Rust `usize::clamp(lo, hi)`. -/
def usize_clamp (x lo hi : Nat) : Nat := max lo (min x hi)

/-- The child-waiting loop of the `Chain` arm of
`fn resolve_to_response_inner`: wait on each stage in order; the first
stage whose mapped exit status is not 2xx is recorded and every remaining
child is killed. A `wait()` IO error (possible only before a failing stage
is found) propagates as an `InternalError` through the `?`-channel. -/
def chain_wait_loop : List (Child × PathBuf) →
    Except ProcessingState (Option (PathBuf × Nat) × List Event)
  | [] => .ok (none, [])
  | (child, origin) :: rest =>
    match child.waitRes with
    | .error e =>
      .error (.InternalError 500
        ("Error resolving process chain at " ++ path_str origin ++ ": " ++ e))
    | .ok code_opt =>
      let code := to_exit_code code_opt
      if status_is_ok code then
        chain_wait_loop rest
      else
        .ok (some (origin, code), rest.map (fun cp => Event.kill cp.2))

/-- `fn resolve_to_response_inner`. The outer `Except String` is a panic
(or fuel exhaustion at the error re-entry); the inner
`Except ProcessingState` is the source's `Err(ProcessingState)` retry
channel consumed by `resolve_to_response`. Fuel is spent only on the
mid-chain-failure re-entry, the one source of unbounded recursion. -/
def resolve_to_response_inner (fs : FS) (fuel : Nat) (state : ProcessingState)
    (basepath : PathBuf) (params : List String) (layers : List String) :
    Except String (Except ProcessingState HttpResult × List Event) :=
  match state with
  | .ErrorCode e => .ok (.ok (.resp (error_response e)), [])
  | .InternalError e _msg => .ok (.ok (.resp (error_response e)), [])
  | .Static h origin status =>
    if !h.rewindOk then
      .ok (.error (.InternalError 500
        "Unable to rewind to start of file while resolving to response"), [])
    else
      match h.readRes with
      | .error e =>
        .ok (.error (.InternalError 500
          ("Couldn't read file " ++ path_str origin ++ ": " ++ e)), [])
      | .ok data =>
        match fs.mimetype origin with
        | .error e =>
          .ok (.error (.InternalError 500
            ("Error getting mimetype of " ++ path_str origin ++ ": " ++ e)), [])
        | .ok mt =>
          .ok (.ok (.resp
            { status := status
            , headers := [("Content-Type", mt), ("Content-Length", toString data.length)]
            , body := data }), [])
  | .HttpError => .ok (.ok .engineErr, [])
  | .Chain stages status =>
    match chain_wait_loop stages with
    | .error p => .ok (.error p, [])
    | .ok (some (origin, code), kills) =>
      match fuel with
      | 0 => .error "recursion limit exceeded"
      | fuel' + 1 =>
        let len := origin.length - basepath.length - 1
        match handle_layer fs basepath (layers.take (usize_clamp len 0 layers.length))
            params (.ErrorCode code) with
        | .error m => .error m
        | .ok (bt, evs) =>
          match resolve_to_response_inner fs fuel' (bt_inner bt) basepath params layers with
          | .error m => .error m
          | .ok (r, evs2) => .ok (r, kills ++ evs ++ evs2)
    | .ok (none, _) =>
      match stages.getLast? with
      | none => .ok (.error (.InternalError 500 "Resolving empty chain"), [])
      | some last =>
        match last.1.outputRes with
        | .error e =>
          .ok (.error (.InternalError 500 ("End of chain could not capture output: " ++ e)), [])
        | .ok output =>
          match output.stderrUtf8 with
          | none =>
            .ok (.error (.InternalError 500 "Error reading utf-8 from header output"), [])
          | some hdrs =>
            .ok (.ok (.resp
              { status := status
              , headers := parse_headers hdrs ++
                  [("Content-Length", toString output.stdout.length)]
              , body := output.stdout }), [])

/-- `fn resolve_to_response`: the trampolined retry loop around
`resolve_to_response_inner`. -/
def resolve_to_response (fs : FS) : Nat → ProcessingState → PathBuf → List String →
    List String → Except String (HttpResult × List Event)
  | 0, _, _, _, _ => .error "recursion limit exceeded"
  | fuel + 1, state, basepath, params, layers =>
    match resolve_to_response_inner fs fuel state basepath params layers with
    | .error m => .error m
    | .ok (.ok r, evs) => .ok (r, evs)
    | .ok (.error e, evs) =>
      (resolve_to_response fs fuel e basepath params layers).map
        (fun p => (p.1, evs ++ p.2))

/-- A filesystem in which nothing exists and nothing can be spawned or
opened; used to exercise the walker and resolver on concrete inputs. -/
def fsEmpty : FS :=
  { isDir := fun _ => false
  , pathExists := fun _ => false
  , isExec := fun _ => false
  , headerTempfileOk := true
  , fallbackTempfileOk := true
  , spawn := fun _ => none
  , openFile := fun _ => none
  , mimetype := fun _ => .error "no such file" }

/-- A filesystem with a single regular, non-executable file at `f`. -/
def fs7 : FS :=
  { isDir := fun _ => false
  , pathExists := fun p => p == ["f"]
  , isExec := fun _ => false
  , headerTempfileOk := true
  , fallbackTempfileOk := true
  , spawn := fun _ => none
  , openFile := fun _ => none
  , mimetype := fun _ => .error "no such file" }

/-- A filesystem with `.base` markers in the base directory and in its
subdirectory `a`. -/
def fsBase2 : FS :=
  { isDir := fun _ => false
  , pathExists := fun p => p == [".base"] || p == ["a", ".base"]
  , isExec := fun _ => false
  , headerTempfileOk := true
  , fallbackTempfileOk := true
  , spawn := fun _ => none
  , openFile := fun _ => none
  , mimetype := fun _ => .error "no such file" }

/-- A child that exited 0 (mapped status 200). -/
def ok_child : Child :=
  { stdoutLive := true, waitRes := .ok (some 0)
  , outputRes := .ok { stdout := [], stderrUtf8 := some "" } }

/-- A child that exited 27 (mapped status 403, the first non-2xx case). -/
def bad_child : Child :=
  { stdoutLive := true, waitRes := .ok (some 27)
  , outputRes := .ok { stdout := [], stderrUtf8 := some "" } }

/-- A child terminated by a signal: `wait()` succeeds with no exit code. -/
def sig_child : Child :=
  { stdoutLive := true, waitRes := .ok none
  , outputRes := .ok { stdout := [], stderrUtf8 := some "" } }

/-- Output of the final chain child used for the header-parsing claims:
two stdout bytes and a stderr with a well-formed, a malformed, and another
well-formed header line. -/
def c8_out : ChildOutput := { stdout := [104, 105], stderrUtf8 := some "X=1\nmalformed\nY=2" }

/-- A successful child carrying `c8_out`. -/
def c8_child : Child :=
  { stdoutLive := true, waitRes := .ok (some 0), outputRes := .ok c8_out }

lemma EXIT_CODES_length : EXIT_CODES.length = 64 := rfl

lemma exit_code_oob (r : Int) (h : EXIT_CODES.length ≤ i32_as_usize r) :
    to_exit_code (some r) = 500 := by
  show (EXIT_CODES.get? (i32_as_usize r)).getD 500 = 500
  rw [List.get?_eq_none.2 h]
  rfl

/-- C5: the exit-code-to-status mapping: exit code 0 yields 200; an exit
code that indexes into the table yields the entry at that index; an exit
code outside the table's index range (too large, or negative, which the
`as usize` cast sends far past the end) yields 500. -/
theorem c5_exit_code_mapping :
    to_exit_code (some 0) = 200 ∧
    (∀ (i : Int) (h0 : 0 ≤ i) (h : i.toNat < EXIT_CODES.length),
      to_exit_code (some i) = EXIT_CODES.get ⟨i.toNat, h⟩) ∧
    (∀ i : Int, -(2 ^ 31) ≤ i → i < 2 ^ 31 →
      (i < 0 ∨ (EXIT_CODES.length : Int) ≤ i) → to_exit_code (some i) = 500) := by
  refine ⟨rfl, ?_, ?_⟩
  · intro i h0 h
    have hiu : i32_as_usize i = i.toNat := by
      unfold i32_as_usize
      rw [EXIT_CODES_length] at h
      rw [Int.emod_eq_of_lt h0 (by omega)]
    show (EXIT_CODES.get? (i32_as_usize i)).getD 500 = EXIT_CODES.get ⟨i.toNat, h⟩
    rw [hiu, List.get?_eq_get h]
    rfl
  · intro i hlo hhi hcase
    apply exit_code_oob
    unfold i32_as_usize
    rw [EXIT_CODES_length]
    have h64 : (2 : Int) ^ 64 = 18446744073709551616 := by norm_num
    rw [h64]
    rw [EXIT_CODES_length] at hcase
    have hlo' : -(2147483648 : Int) ≤ i := by
      have : ((2 : Int) ^ 31) = 2147483648 := by norm_num
      omega
    have hhi' : i < 2147483648 := by
      have : ((2 : Int) ^ 31) = 2147483648 := by norm_num
      omega
    omega

/-- C5 witness: exit code 1 maps through the table to 100, and exit code
100 is past the end of the 64-entry table and maps to 500. -/
theorem c5_exit_code_mapping_witness :
    (0 ≤ (1 : Int)) ∧ ((1 : Int).toNat < EXIT_CODES.length) ∧
    to_exit_code (some 1) = 100 ∧ to_exit_code (some 100) = 500 := by
  refine ⟨by decide, by decide, ?_, ?_⟩
  · exact (c5_exit_code_mapping.2.1 1 (by decide) (by decide)).trans (by rfl)
  · exact c5_exit_code_mapping.2.2 100 (by decide) (by decide) (Or.inr (by decide))

/-- C7: funnelling a live `Chain` into a terminal regular non-executable
file makes `handle_file` panic through the `todo!()` in
`ProcessingState::handle_code` (modelled as the `Except.error` channel),
instead of returning `InternalError(500)` as the spec mandates. -/
theorem c7_chain_into_static_panics :
    handle_file fs7 ["f"] (.Chain [(ok_child, ["g"])] 200) [] =
      .error "Attempting to direct a chain into a static file.  This is unimplemented, erroring." := by
  rfl

/-- C9: a stage that terminates without an exit code maps to 500 via
`to_exit_code`, the same value as an out-of-range exit code, and inside the
resolver's wait loop such a stage becomes the failing stage with code 500. -/
theorem c9_no_exit_code_500 :
    to_exit_code none = 500 ∧
    (∀ r : Int, EXIT_CODES.length ≤ i32_as_usize r → to_exit_code (some r) = 500) ∧
    (∀ (c : Child) (origin : PathBuf) (rest : List (Child × PathBuf)),
      c.waitRes = Except.ok none →
      chain_wait_loop ((c, origin) :: rest) =
        .ok (some (origin, 500), rest.map (fun cp => Event.kill cp.2))) := by
  refine ⟨rfl, fun r h => exit_code_oob r h, ?_⟩
  intro c origin rest hc
  simp [chain_wait_loop, hc, to_exit_code, status_is_ok]

/-- C9 witness: the `-1` exit status (
`i32 as usize` wraps to 2^64 − 1, far out of range) maps to 500, and a
signal-killed first stage makes the loop fail with 500 and kill the rest. -/
theorem c9_no_exit_code_500_witness :
    EXIT_CODES.length ≤ i32_as_usize (-1) ∧ to_exit_code (some (-1)) = 500 ∧
    chain_wait_loop [(sig_child, ["s"]), (ok_child, ["t"])] =
      .ok (some (["s"], 500), [Event.kill ["t"]]) := by
  refine ⟨by decide, c9_no_exit_code_500.2.1 (-1) (by decide), ?_⟩
  exact (c9_no_exit_code_500.2.2 sig_child ["s"] [(ok_child, ["t"])] rfl).trans (by rfl)

/-- C10: resolving a `Chain` with an empty stage list is total: the
`c.pop()` failure is caught by `ok_or` and surfaces as
`InternalError(500, "Resolving empty chain")` on the retry channel, with no
panic and no process events; this holds even with no recursion fuel. -/
theorem c10_empty_chain_internal_error (fs : FS) (fuel : Nat) (status : Nat)
    (basepath : PathBuf) (params layers : List String) :
    resolve_to_response_inner fs fuel (.Chain [] status) basepath params layers =
      .ok (.error (.InternalError 500 "Resolving empty chain"), []) := by
  simp [resolve_to_response_inner, chain_wait_loop]

/-- C2 counterexample: after the startup loop, the environment variable
named `"200"` holds `"5"` (the later index of 200 in `EXIT_CODES`, at the
head of the 2xx block, overwrites the reserved index 0), not `"0"`. -/
theorem c2_env_var_200_counterexample :
    startup_env (fun _ => none) "200" = some "5" ∧
    startup_env (fun _ => none) "200" ≠ some "0" := by
  exact ⟨by decide, by decide⟩

lemma foldl_install_congr (ps : List (Nat × Nat)) (e0 e1 : String → Option String)
    (k : String) (h : e0 k = e1 k) :
    ps.foldl install_step e0 k = ps.foldl install_step e1 k := by
  induction ps generalizing e0 e1 with
  | nil => exact h
  | cons p ps ih =>
    rw [List.foldl_cons, List.foldl_cons]
    apply ih
    by_cases hk : k = toString p.2
    · simp [install_step, set_var, hk]
    · simp [install_step, set_var, hk, h]

lemma foldl_install_mem (ps : List (Nat × Nat)) (e0 e1 : String → Option String)
    (k : String) (h : ∃ p ∈ ps, toString p.2 = k) :
    ps.foldl install_step e0 k = ps.foldl install_step e1 k := by
  induction ps generalizing e0 e1 with
  | nil => simp at h
  | cons p ps ih =>
    rw [List.foldl_cons, List.foldl_cons]
    by_cases hk : toString p.2 = k
    · apply foldl_install_congr
      subst hk
      simp [install_step, set_var]
    · rcases h with ⟨q, hq, hqk⟩
      rcases List.mem_cons.1 hq with rfl | hq'
      · exact absurd hqk hk
      · exact ih _ _ ⟨q, hq', hqk⟩

lemma exists_enumFrom_of_mem (l : List Nat) (s : Nat) :
    s ∈ l → ∀ n, ∃ p ∈ l.enumFrom n, p.2 = s := by
  induction l with
  | nil => intro hs; simp at hs
  | cons a l ih =>
    intro hs n
    rcases List.mem_cons.1 hs with rfl | hs'
    · exact ⟨(n, s), by simp [List.enumFrom_cons], rfl⟩
    · obtain ⟨p, hp, hps⟩ := ih hs' (n + 1)
      refine ⟨p, ?_, hps⟩
      rw [List.enumFrom_cons]
      exact List.mem_cons_of_mem _ hp

lemma startup_env_concrete :
    ∀ s ∈ EXIT_CODES, startup_env (fun _ => none) (toString s) =
      some (toString (last_index_of EXIT_CODES s)) := by decide

/-- C2 amended: after the startup loop, for every status `s` of the table
the variable named `toString s` holds the decimal string of the greatest
index at which `s` occurs in `EXIT_CODES` (each `set_var` of the loop
overwrites the previous one); every status except 200 occurs once, and the
variable `"200"` holds `"5"`. -/
theorem c2_env_var_last_index (env0 : String → Option String) (s : Nat)
    (hs : s ∈ EXIT_CODES) :
    startup_env env0 (toString s) = some (toString (last_index_of EXIT_CODES s)) := by
  have hmem : ∃ p ∈ EXIT_CODES.enum, toString p.2 = toString s := by
    obtain ⟨p, hp, hps⟩ := exists_enumFrom_of_mem EXIT_CODES s hs 0
    exact ⟨p, hp, by rw [hps]⟩
  have heq : startup_env env0 (toString s) = startup_env (fun _ => none) (toString s) :=
    foldl_install_mem EXIT_CODES.enum env0 (fun _ => none) (toString s) hmem
  rw [heq]
  exact startup_env_concrete s hs

/-- C2 witness: status 404 sits at index 28 of the table, and with an
arbitrary pre-existing environment the startup loop leaves `"404" ↦ "28"`. -/
theorem c2_env_var_last_index_witness :
    404 ∈ EXIT_CODES ∧
    startup_env (fun _ => some "unset") "404" = some "28" := by
  refine ⟨by decide, ?_⟩
  exact (c2_env_var_last_index (fun _ => some "unset") 404 (by decide)).trans (by rfl)

lemma bt_inner_base_check (fs : FS) (c : PathBuf) (p : ProcessingState) :
    bt_inner (base_check fs c p) = p := by
  unfold base_check
  split <;> rfl

lemma base_check_done (fs : FS) (c : PathBuf) (p : ProcessingState)
    (hbase : fs.pathExists (c ++ [".base"]) = true) :
    base_check fs c p = .error p := by
  simp [base_check, hbase]

/-- C1: a request whose layer list contains a segment starting with `.`
never reaches `handle_file`: `handle_layer` produces the state
`ErrorCode(403)` with an empty event trace (in particular, no child is
spawned and none is killed), and resolving `ErrorCode(403)` produces the
default error response with status 403. -/
theorem c1_dot_segment_rejected (fs : FS) (curr : PathBuf) (rem : List String)
    (params : List String) (inc : ProcessingState)
    (h : ∃ s ∈ rem, starts_with_dot s = true) :
    (∃ bt, handle_layer fs curr rem params inc = .ok (bt, []) ∧
      bt_inner bt = .ErrorCode 403) ∧
    resolve_to_response fs 1 (.ErrorCode 403) curr params rem =
      .ok (.resp (error_response 403), []) ∧
    (error_response 403).status = 403 := by
  refine ⟨?_, ?_, rfl⟩
  · induction rem generalizing curr with
    | nil => simp at h
    | cons seg rest ih =>
      by_cases hseg : starts_with_dot seg = true
      · refine ⟨base_check fs curr (.ErrorCode 403), ?_, bt_inner_base_check ..⟩
        simp [handle_layer, hseg]
      · have hrest : ∃ s ∈ rest, starts_with_dot s = true := by
          rcases h with ⟨s, hs, hdot⟩
          rcases List.mem_cons.1 hs with rfl | hs'
          · exact absurd hdot hseg
          · exact ⟨s, hs', hdot⟩
        obtain ⟨bt', h1, h2⟩ := ih (curr ++ [seg]) hrest
        cases bt' with
        | error p =>
          refine ⟨.error p, ?_, h2⟩
          simp [handle_layer, hseg, h1]
        | ok p =>
          have h2' : p = .ErrorCode 403 := h2
          refine ⟨base_check fs curr p, ?_, (bt_inner_base_check fs curr p).trans h2'⟩
          simp [handle_layer, hseg, h1]
  · simp [resolve_to_response, resolve_to_response_inner]

/-- C1 witness: the layer list `[a, .., b]` contains the dot segment `..`,
and walking it over the empty filesystem from a live 200 state yields
`ErrorCode(403)` with no events. -/
theorem c1_dot_segment_rejected_witness :
    (∃ s ∈ ["a", "..", "b"], starts_with_dot s = true) ∧
    (∃ bt, handle_layer fsEmpty [] ["a", "..", "b"] [] (.ErrorCode 200) = .ok (bt, []) ∧
      bt_inner bt = .ErrorCode 403) := by
  refine ⟨⟨"..", by decide, by decide⟩, ?_⟩
  exact (c1_dot_segment_rejected fsEmpty [] ["a", "..", "b"] [] (.ErrorCode 200)
    ⟨"..", by decide, by decide⟩).1

/-- C4: when the candidate path (after the `.index` substitution for
directories) does not exist, `handle_file` on a non-`HttpError` state
returns `ErrorCode(404)` after killing the state's chain if the incoming
status is 2xx, and returns the incoming state unchanged (never upgrading it
to 404, with no kills) otherwise. -/
theorem c4_missing_file (fs : FS) (file0 : PathBuf) (prev : ProcessingState)
    (params : List String) (hne : prev ≠ .HttpError)
    (hmiss : fs.pathExists (if fs.isDir file0 then file0 ++ [".index"] else file0) = false) :
    handle_file fs file0 prev params =
      if prev.is_ok then .ok (.ErrorCode 404, halt_processing prev)
      else .ok (prev, []) := by
  cases prev <;> first
    | exact absurd rfl hne
    | simp [handle_file, hmiss]

/-- C4 witness: a missing file with a live (200) chain state yields
`ErrorCode(404)` and kills the chain's child. -/
theorem c4_missing_file_witness :
    ((ProcessingState.Chain [(ok_child, ["x"])] 200) ≠ .HttpError) ∧
    fsEmpty.pathExists (if fsEmpty.isDir ["f"] then ["f"] ++ [".index"] else ["f"]) = false ∧
    handle_file fsEmpty ["f"] (.Chain [(ok_child, ["x"])] 200) [] =
      .ok (.ErrorCode 404, [Event.kill ["x"]]) := by
  refine ⟨fun hcontra => ProcessingState.noConfusion hcontra, rfl, ?_⟩
  exact (c4_missing_file fsEmpty ["f"] (.Chain [(ok_child, ["x"])] 200) []
    (fun hcontra => ProcessingState.noConfusion hcontra) rfl).trans (by rfl)

/-- C6: the `.base` marker and the `Done` protocol. First conjunct: if the
directory at the current level contains `.base`, `handle_layer` returns its
result marked `Done` (`Except.error`), whatever happened below. Second
conjunct: a `Done`-marked result of an inner call propagates through every
enclosing non-dot layer completely unchanged (state and event trace): the
source's `?` returns it before any further processing of the outer level. -/
theorem c6_base_done (fs : FS) (curr : PathBuf) (params : List String)
    (inc : ProcessingState) :
    (∀ rem bt evs, fs.pathExists (curr ++ [".base"]) = true →
      handle_layer fs curr rem params inc = .ok (bt, evs) →
      ∃ p, bt = .error p) ∧
    (∀ pref rem p evs, (∀ s ∈ pref, starts_with_dot s = false) →
      handle_layer fs (curr ++ pref) rem params inc = .ok (.error p, evs) →
      handle_layer fs curr (pref ++ rem) params inc = .ok (.error p, evs)) := by
  constructor
  · intro rem bt evs hbase heq
    cases rem with
    | nil =>
      rw [handle_layer] at heq
      cases hf : handle_file fs curr inc params with
      | error m => rw [hf] at heq; exact absurd heq (by simp)
      | ok res_evs =>
        obtain ⟨res, evs0⟩ := res_evs
        rw [hf] at heq
        simp only [base_check_done fs curr res hbase, Except.ok.injEq, Prod.mk.injEq] at heq
        exact ⟨res, heq.1.symm⟩
    | cons seg rest =>
      rw [handle_layer] at heq
      by_cases hseg : starts_with_dot seg = true
      · rw [if_pos hseg, base_check_done fs curr _ hbase] at heq
        simp only [Except.ok.injEq, Prod.mk.injEq] at heq
        exact ⟨.ErrorCode 403, heq.1.symm⟩
      · rw [if_neg hseg] at heq
        cases hr : handle_layer fs (curr ++ [seg]) rest params inc with
        | error m => rw [hr] at heq; exact absurd heq (by simp)
        | ok bt_evs =>
          obtain ⟨bt', evs0⟩ := bt_evs
          rw [hr] at heq
          cases bt' with
          | error p =>
            simp only [Except.ok.injEq, Prod.mk.injEq] at heq
            exact ⟨p, heq.1.symm⟩
          | ok p =>
            simp only [base_check_done fs curr p hbase, Except.ok.injEq, Prod.mk.injEq] at heq
            exact ⟨p, heq.1.symm⟩
  · intro pref
    induction pref generalizing curr with
    | nil =>
      intro rem p evs _ heq
      simpa using heq
    | cons s pref' ih =>
      intro rem p evs hdots heq
      have hs : starts_with_dot s = false := hdots s (List.mem_cons_self ..)
      have hinner : handle_layer fs ((curr ++ [s]) ++ pref') rem params inc =
          .ok (.error p, evs) := by
        rw [List.append_assoc]
        simpa using heq
      have hrec := ih (curr ++ [s]) rem p evs
        (fun q hq => hdots q (List.mem_cons_of_mem _ hq)) hinner
      show handle_layer fs curr (s :: (pref' ++ rem)) params inc = .ok (.error p, evs)
      rw [handle_layer, if_neg (by simp [hs]), hrec]

/-- C6 witness: with `.base` in the base directory and in `a`, the level at
`a` (whose walk of `[a]` ends in a `Done` result frozen by `a/.base`) has
its `Done` result propagated unchanged by the enclosing level, and the
`.base` in the base directory forces a `Done` result there. -/
theorem c6_base_done_witness :
    fsBase2.pathExists ([] ++ [".base"]) = true ∧
    (∃ p, (Except.error (ProcessingState.ErrorCode 300) : BackTrackState) = .error p) ∧
    handle_layer fsBase2 [] (["a"] ++ []) [] (.ErrorCode 300) =
      .ok (.error (.ErrorCode 300), []) := by
  refine ⟨rfl, ?_, ?_⟩
  · exact (c6_base_done fsBase2 [] [] (.ErrorCode 300)).1 ["a"] (.error (.ErrorCode 300)) []
      rfl rfl
  · exact (c6_base_done fsBase2 [] [] (.ErrorCode 300)).2 ["a"] [] (.ErrorCode 300) []
      (by intro s hs; simp at hs; subst hs; rfl) rfl

lemma chain_wait_loop_first_fail (pre post : List (Child × PathBuf)) (c : Child)
    (origin : PathBuf) (fco : Option Int)
    (hpre : ∀ cp ∈ pre, ∃ co, cp.1.waitRes = Except.ok co ∧
      status_is_ok (to_exit_code co) = true)
    (hc : c.waitRes = Except.ok fco)
    (hfail : status_is_ok (to_exit_code fco) = false) :
    chain_wait_loop (pre ++ (c, origin) :: post) =
      .ok (some (origin, to_exit_code fco), post.map (fun cp => Event.kill cp.2)) := by
  induction pre with
  | nil =>
    simp [chain_wait_loop, hc, hfail]
  | cons cp pre ih =>
    obtain ⟨ch, p⟩ := cp
    obtain ⟨co, hco, hok⟩ := hpre (ch, p) (List.mem_cons_self ..)
    have hrec := ih (fun q hq => hpre q (List.mem_cons_of_mem _ hq))
    have hco' : ch.waitRes = Except.ok co := hco
    simp [chain_wait_loop, hco', hok, hrec]

/-- C3: when the first failing stage of a chain is `(c, origin)` with
mapped code `to_exit_code fco` (every earlier stage waited successfully
with a 2xx code), the resolver kills every remaining child, re-enters
`handle_layer` from the base directory over
`layers[0 .. clamp(origin_components − base_components − 1, 0, layers.len)]`
with initial state `ErrorCode(code)`, and resolves the state that walk
produces. -/
theorem c3_chain_failure_reentry (fs : FS) (fuel : Nat)
    (pre post : List (Child × PathBuf)) (c : Child) (origin : PathBuf)
    (fco : Option Int) (status : Nat) (basepath : PathBuf)
    (params layers : List String)
    (hpre : ∀ cp ∈ pre, ∃ co, cp.1.waitRes = Except.ok co ∧
      status_is_ok (to_exit_code co) = true)
    (hc : c.waitRes = Except.ok fco)
    (hfail : status_is_ok (to_exit_code fco) = false) :
    resolve_to_response_inner fs (fuel + 1) (.Chain (pre ++ (c, origin) :: post) status)
        basepath params layers =
      match handle_layer fs basepath
          (layers.take (usize_clamp (origin.length - basepath.length - 1) 0 layers.length))
          params (.ErrorCode (to_exit_code fco)) with
      | .error m => .error m
      | .ok (bt, evs) =>
        match resolve_to_response_inner fs fuel (bt_inner bt) basepath params layers with
        | .error m => .error m
        | .ok (r, evs2) =>
          .ok (r, post.map (fun cp => Event.kill cp.2) ++ evs ++ evs2) := by
  rw [resolve_to_response_inner]
  rw [chain_wait_loop_first_fail pre post c origin fco hpre hc hfail]

/-- C3 witness: a three-stage chain whose middle stage (origin
`base/e/f`, three components against a one-component base directory, so
depth 1) exits 27 (mapped 403): the third child is killed and the walk of
`layers[0..1] = [a]` over the empty tree propagates `ErrorCode(403)` into
the default 403 response. -/
theorem c3_chain_failure_reentry_witness :
    status_is_ok (to_exit_code (some 27)) = false ∧
    resolve_to_response_inner fsEmpty 1
        (.Chain [(ok_child, ["x"]), (bad_child, ["base", "e", "f"]), (ok_child, ["c"])] 200)
        ["base"] [] ["a"] =
      .ok (.ok (.resp (error_response 403)), [Event.kill ["c"]]) := by
  refine ⟨by decide, ?_⟩
  have h := c3_chain_failure_reentry fsEmpty 0 [(ok_child, ["x"])] [(ok_child, ["c"])]
    bad_child ["base", "e", "f"] (some 27) 200 ["base"] [] ["a"]
    (by intro cp hcp; simp at hcp; subst hcp; exact ⟨some 0, rfl, by decide⟩)
    rfl (by decide)
  exact h.trans (by rfl)

/-- C8 counterexample: a fully successful one-stage chain whose final
stderr contains the malformed line `malformed` (non-empty, no `=`) does
NOT downgrade to `InternalError(500)`: it resolves to a normal response
with status 200 in which the malformed line is silently dropped and the
well-formed lines become headers. -/
theorem c8_malformed_header_counterexample :
    resolve_to_response_inner fsEmpty 1 (.Chain [(c8_child, ["f"])] 200) [] [] [] =
      .ok (.ok (.resp
        { status := 200
        , headers := [("X", "1"), ("Y", "2"), ("Content-Length", "2")]
        , body := [104, 105] }), []) ∧
    (∃ l ∈ split_char newlineChar "X=1\nmalformed\nY=2".toList,
      l ≠ [] ∧ split_once_char (Char.ofNat 61) l = none) := by
  refine ⟨by rfl, ⟨"malformed".toList, by decide, by decide, by rfl⟩⟩

lemma chain_wait_loop_all_ok (l : List (Child × PathBuf))
    (h : ∀ cp ∈ l, ∃ co, cp.1.waitRes = Except.ok co ∧
      status_is_ok (to_exit_code co) = true) :
    chain_wait_loop l = .ok (none, []) := by
  induction l with
  | nil => rfl
  | cons cp rest ih =>
    obtain ⟨ch, p⟩ := cp
    obtain ⟨co, hco, hok⟩ := h (ch, p) (List.mem_cons_self ..)
    have hco' : ch.waitRes = Except.ok co := hco
    have hrec := ih (fun q hq => h q (List.mem_cons_of_mem _ hq))
    simp [chain_wait_loop, hco', hok, hrec]

/-- C8 amended: when every stage of a chain exits 2xx, the final child's
UTF-8 stderr is split into lines and each line is split on the FIRST `=`
into a `(key, value)` header; a line with no `=` (malformed, including the
empty line) is silently dropped rather than downgrading the result.
The last two conjuncts characterise `split_once`: it returns `none`
exactly on `=`-free lines and splits at the first `=` otherwise.
(A non-UTF-8 stderr stream, by contrast, does downgrade to
`InternalError(500)`: see the `stderrUtf8 = none` branch of
`resolve_to_response_inner`.) -/
theorem c8_header_parsing :
    (∀ (fs : FS) (fuel : Nat) (pre : List (Child × PathBuf)) (lastc : Child)
      (lorigin : PathBuf) (status : Nat) (basepath : PathBuf)
      (params layers : List String) (out : ChildOutput) (s : String),
      (∀ cp ∈ pre ++ [(lastc, lorigin)], ∃ co, cp.1.waitRes = Except.ok co ∧
        status_is_ok (to_exit_code co) = true) →
      lastc.outputRes = Except.ok out → out.stderrUtf8 = some s →
      resolve_to_response_inner fs fuel (.Chain (pre ++ [(lastc, lorigin)]) status)
          basepath params layers =
        .ok (.ok (.resp
          { status := status
          , headers := parse_headers s ++ [("Content-Length", toString out.stdout.length)]
          , body := out.stdout }), [])) ∧
    (∀ l : List Char, Char.ofNat 61 ∉ l → split_once_char (Char.ofNat 61) l = none) ∧
    (∀ a b : List Char, Char.ofNat 61 ∉ a →
      split_once_char (Char.ofNat 61) (a ++ Char.ofNat 61 :: b) = some (a, b)) := by
  refine ⟨?_, ?_, ?_⟩
  · intro fs fuel pre lastc lorigin status basepath params layers out s hall hout hs
    rw [resolve_to_response_inner]
    rw [chain_wait_loop_all_ok _ hall]
    rw [List.getLast?_concat]
    simp only [hout, hs]
  · intro l hl
    induction l with
    | nil => rfl
    | cons x xs ih =>
      have hx : x ≠ Char.ofNat 61 := fun hcontra => hl (hcontra ▸ List.mem_cons_self ..)
      have hrec := ih (fun hcontra => hl (List.mem_cons_of_mem _ hcontra))
      simp [split_once_char, hx, hrec]
  · intro a b ha
    induction a with
    | nil => simp [split_once_char]
    | cons x xs ih =>
      have hx : x ≠ Char.ofNat 61 := fun hcontra => ha (hcontra ▸ List.mem_cons_self ..)
      have hrec := ih (fun hcontra => ha (List.mem_cons_of_mem _ hcontra))
      simp [split_once_char, hx, hrec]

/-- C8 witness: the general header-parsing theorem applied to the
one-stage chain carrying `c8_out`, and the split characterisations applied
to the line `malformed` (no `=`) and to `X=1` (split at the first `=`). -/
theorem c8_header_parsing_witness :
    (c8_child.outputRes = Except.ok c8_out) ∧
    resolve_to_response_inner fsEmpty 0 (.Chain ([] ++ [(c8_child, ["f"])]) 200) [] [] [] =
      .ok (.ok (.resp
        { status := 200
        , headers := parse_headers "X=1\nmalformed\nY=2" ++
            [("Content-Length", toString c8_out.stdout.length)]
        , body := c8_out.stdout }), []) ∧
    split_once_char (Char.ofNat 61) "malformed".toList = none ∧
    split_once_char (Char.ofNat 61) ("X".toList ++ Char.ofNat 61 :: "1".toList) =
      some ("X".toList, "1".toList) := by
  refine ⟨rfl, ?_, ?_, ?_⟩
  · exact c8_header_parsing.1 fsEmpty 0 [] c8_child ["f"] 200 [] [] [] c8_out
      "X=1\nmalformed\nY=2"
      (by intro cp hcp; simp at hcp; subst hcp; exact ⟨some 0, rfl, by decide⟩)
      rfl rfl
  · exact c8_header_parsing.2.1 "malformed".toList (by decide)
  · exact c8_header_parsing.2.2 "X".toList "1".toList (by decide)
